import Mathlib

/-
Verification of the CHD backend event pipeline.

Shallow embedding of the Python sources:
  backend/speech_haptic_pipeline.py  (AudioCapture queue, phrase splitting, intensity tiers)
  backend/phoneme_engine.py          (Phoneme timeline engine)
  backend/websocket_server.py        (ViewerManager broadcast, HapticEventManager)
  backend/lip_reading.py             (mouth state tracking)

Python text is modelled as List Char; float arithmetic on the small decimal
constants involved is exact, so energies, times and confidences are modelled
as rationals.
-/

namespace SpeechHapticPipeline

/-- Text is modelled at the character level, as in the Python source. -/
abbrev Text := List Char

/-- Characters of the regular expression class [.!?,;:\x2d–—] used by
re.split in the method SpeechHapticPipeline._split_phrases
(period, exclamation, question mark, comma, semicolon, colon,
hyphen, en dash, em dash). -/
def PUNCT_CHARS : List Char := ['.', '!', '?', ',', ';', ':', '-', '–', '—']

/-- Whitespace characters recognised by str.split() in Python
(ASCII range: space, tab, newline, carriage return, vertical tab, form feed). -/
def pyIsSpace (c : Char) : Bool :=
  c = ' ' || c = '\t' || c = '\n' || c = '\x0d' || c = '\x0b' || c = '\x0c'

/-- Character-level split at every character satisfying the predicate,
keeping empty pieces.  The source splits with the regular expression
[.!?,;:\x2d–—]+ which collapses runs of punctuation; a run of length k
yields here k-1 extra empty segments, which the caller discards
(a segment with no words is skipped), so the final result is unchanged. -/
def splitOnPred (p : Char → Bool) : Text → List Text
  | [] => [[]]
  | c :: rest =>
    let r := splitOnPred p rest
    if p c then [] :: r
    else
      match r with
      | [] => [[c]]
      | h :: t => (c :: h) :: t

/-- Python str.split() with no argument: split on whitespace and drop
empty pieces. -/
def pySplitWs (t : Text) : List Text :=
  (splitOnPred pyIsSpace t).filter (fun w => w ≠ [])

/-- Python str.lower() restricted to the ASCII inputs used here. -/
def pyLower (w : Text) : Text := w.map Char.toLower

/-- The constant SPLIT_WORDS of speech_haptic_pipeline.py. -/
def SPLIT_WORDS : List Text :=
  (["and", "but", "or", "so", "because", "then", "when", "while", "if",
    "although", "that", "which", "where", "after", "before", "since",
    "for", "with", "from", "into", "about", "like", "just"].map String.toList)

/-- The constant MAX_PHRASE_WORDS of speech_haptic_pipeline.py. -/
def MAX_PHRASE_WORDS : Nat := 8

/-- The constant MIN_PHRASE_WORDS of speech_haptic_pipeline.py. -/
def MIN_PHRASE_WORDS : Nat := 2

/-- Python " ".join(words). -/
def joinWords (ws : List Text) : Text := List.intercalate [' '] ws

/-- Python str.strip(): drop leading and trailing whitespace. -/
def pyStrip (t : Text) : Text :=
  ((t.dropWhile pyIsSpace).reverse.dropWhile pyIsSpace).reverse

/-- The word-accumulating loop of _split_phrases for one over-long segment.
Mirrors: append the word to current; if the lowered word is in SPLIT_WORDS
and current has at least MIN_PHRASE_WORDS words, cut; else if current has
reached MAX_PHRASE_WORDS words, cut; finally flush a non-empty remainder. -/
def chunkLoop : List Text → List Text → List Text
  | [], current => if current = [] then [] else [joinWords current]
  | w :: ws, current =>
    let cur := current ++ [w]
    if pyLower w ∈ SPLIT_WORDS ∧ MIN_PHRASE_WORDS ≤ cur.length then
      joinWords cur :: chunkLoop ws []
    else if MAX_PHRASE_WORDS ≤ cur.length then
      joinWords cur :: chunkLoop ws []
    else
      chunkLoop ws cur

/-- The method SpeechHapticPipeline._split_phrases: split on sentence
punctuation, keep short segments whole, chunk long segments with
chunkLoop, then strip and drop empty results. -/
def split_phrases (text : Text) : List Text :=
  let raw_segments := splitOnPred (fun c => c ∈ PUNCT_CHARS) text
  let phrases := (raw_segments.map (fun segment =>
    let words := pySplitWs segment
    if words = [] then []
    else if words.length ≤ MAX_PHRASE_WORDS then [joinWords words]
    else chunkLoop words [])).flatten
  (phrases.map pyStrip).filter (fun p => pyStrip p ≠ [])

/-- Number of words of a phrase, as Python len(p.split()). -/
def wordCount (p : Text) : Nat := (pySplitWs p).length

/-- The constant SILENCE_RMS_THRESHOLD of speech_haptic_pipeline.py. -/
def SILENCE_RMS_THRESHOLD : ℚ := 0.01

/-- The method SpeechHapticPipeline._rms_to_intensity: map the normalized
energy of a chunk to a discrete intensity tier. -/
def rms_to_intensity (rms : ℚ) : String :=
  if rms < SILENCE_RMS_THRESHOLD then "silence"
  else if rms < 0.04 then "low"
  else if rms < 0.10 then "medium"
  else if rms < 0.20 then "high"
  else "burst"

/-- Rank of an intensity tier, for stating monotonicity
(silence < low < medium < high < burst). -/
def tierRank (tier : String) : Nat :=
  if tier = "silence" then 0
  else if tier = "low" then 1
  else if tier = "medium" then 2
  else if tier = "high" then 3
  else 4

/-- The queue step of AudioCapture._capture_loop: under the lock, if at
least 5 chunks are queued, the oldest is popped, and then the new chunk
is appended. -/
def push_chunk {α : Type} (chunks : List α) (c : α) : List α :=
  let chunks := if 5 ≤ chunks.length then chunks.tail else chunks
  chunks ++ [c]

/-- The method AudioCapture.pop_chunk: non-blocking, return the oldest
buffered chunk (or none) together with the remaining queue. -/
def pop_chunk {α : Type} (chunks : List α) : Option α × List α :=
  match chunks with
  | [] => (none, [])
  | x :: rest => (some x, rest)

end SpeechHapticPipeline

namespace PhonemeEngine

/-- The dataclass Phoneme of phoneme_engine.py.  Times are seconds, kept
as exact rationals; the haptic pattern is a list of millisecond values. -/
structure Phoneme where
  id : String
  type : String
  start : ℚ
  duration : ℚ
  haptic_pattern : List Int
  confidence : ℚ
deriving DecidableEq, Repr

/-- The method Phoneme.is_active_at_time:
start <= current_time < start + duration. -/
def is_active_at_time (p : Phoneme) (current_time : ℚ) : Bool :=
  decide (p.start ≤ current_time) && decide (current_time < p.start + p.duration)

/-- Mutable state of the class PhonemeEngine: the loaded phoneme list, the
playback clock offset, the playing flag and the timestamp of the last
implicit-delta update.  The callbacks are modelled by returning the list
of triggered phonemes from update. -/
structure EngineState where
  lesson_phonemes : List Phoneme
  current_time_offset : ℚ
  is_playing : Bool
  last_processed_time : ℚ
deriving DecidableEq, Repr

/-- The initial state built by PhonemeEngine.__init__. -/
def initState : EngineState :=
  { lesson_phonemes := [], current_time_offset := 0, is_playing := false,
    last_processed_time := 0 }

/-- One entry of the phonemes array of a lesson JSON file.  A field which
the entry does not contain is none; indexing a missing mandatory key in
Python raises KeyError, while haptic_pattern and confidence are read
with .get defaults. -/
structure LessonEntry where
  id? : Option String
  type? : Option String
  start? : Option ℚ
  duration? : Option ℚ
  haptic_pattern? : Option (List Int)
  confidence? : Option ℚ
deriving DecidableEq

/-- Construction of one Phoneme inside the load_lesson loop: a missing
mandatory key raises (modelled as none); haptic_pattern defaults to [100]
and confidence to 1.0. -/
def parseEntry (e : LessonEntry) : Option Phoneme :=
  match e.id?, e.type?, e.start?, e.duration? with
  | some i, some t, some s, some d =>
    some { id := i, type := t, start := s, duration := d,
           haptic_pattern := e.haptic_pattern?.getD [100],
           confidence := e.confidence?.getD 1 }
  | _, _, _, _ => none

/-- The loop of PhonemeEngine.load_lesson: each entry is parsed and
appended to self.lesson_phonemes; the first failure aborts the loop and
returns False, with all previous appends already performed. -/
def loadLoop (st : EngineState) : List LessonEntry → Bool × EngineState
  | [] => (true, st)
  | e :: es =>
    match parseEntry e with
    | some p =>
      loadLoop { st with lesson_phonemes := st.lesson_phonemes ++ [p] } es
    | none => (false, st)

/-- The method PhonemeEngine.load_lesson, after the file has been read and
parsed into a list of entries: self.lesson_phonemes is first reset to the
empty list, then the entries are parsed one by one; an exception returns
False with the state as mutated so far. -/
def load_lesson (st : EngineState) (entries : List LessonEntry) : Bool × EngineState :=
  loadLoop { st with lesson_phonemes := [] } entries

/-- The method PhonemeEngine.start_playback; the wall-clock reading
time.time() is passed in explicitly as now. -/
def start_playback (st : EngineState) (start_time_offset : ℚ) (now : ℚ) : EngineState :=
  { st with current_time_offset := start_time_offset, is_playing := true,
            last_processed_time := now }

/-- The method PhonemeEngine.pause_playback. -/
def pause_playback (st : EngineState) : EngineState :=
  { st with is_playing := false }

/-- The method PhonemeEngine.resume_playback. -/
def resume_playback (st : EngineState) (now : ℚ) : EngineState :=
  { st with is_playing := true, last_processed_time := now }

/-- The method PhonemeEngine.stop_playback. -/
def stop_playback (st : EngineState) : EngineState :=
  { st with is_playing := false, current_time_offset := 0 }

/-- The method PhonemeEngine.get_active_phonemes. -/
def get_active_phonemes (st : EngineState) (current_time : ℚ) : List Phoneme :=
  st.lesson_phonemes.filter (fun p => is_active_at_time p current_time)

/-- The method PhonemeEngine.update with an explicit delta_time: a no-op
unless playing, otherwise the clock advances by delta_time and the haptic
callback fires once per active phoneme; the triggered phonemes are
returned. -/
def update (st : EngineState) (delta_time : ℚ) : EngineState × List Phoneme :=
  if !st.is_playing then (st, [])
  else
    let st := { st with current_time_offset := st.current_time_offset + delta_time }
    (st, get_active_phonemes st st.current_time_offset)

/-- First phoneme of the list with the given type, as the inner loop of
get_current_phoneme. -/
def firstOfType (active : List Phoneme) (t : String) : Option Phoneme :=
  active.find? (fun p => p.type == t)

/-- The method PhonemeEngine.get_current_phoneme: among active phonemes,
the priority order consonant > vowel > buzz > silence, with the first
active phoneme as fallback. -/
def get_current_phoneme (st : EngineState) : Option Phoneme :=
  let active := get_active_phonemes st st.current_time_offset
  if active = [] then none
  else
    (firstOfType active "consonant").orElse (fun _ =>
      (firstOfType active "vowel").orElse (fun _ =>
        (firstOfType active "buzz").orElse (fun _ =>
          (firstOfType active "silence").orElse (fun _ => active.head?))))

/-- The dictionary returned by PhonemeEngine.get_playback_progress.  The
keys is_playing and current_phoneme are absent (none) in the empty-lesson
early return; current_phoneme is otherwise present and itself optional. -/
structure ProgressInfo where
  progress : ℚ
  current_time : ℚ
  total_duration : ℚ
  is_playing : Option Bool
  current_phoneme : Option (Option (String × String))
deriving DecidableEq, Repr

/-- Python max over the non-empty sequence of values start + duration. -/
def totalDuration (ps : List Phoneme) : ℚ :=
  match ps.map (fun p => p.start + p.duration) with
  | [] => 0
  | v :: rest => rest.foldl max v

/-- The method PhonemeEngine.get_playback_progress. -/
def get_playback_progress (st : EngineState) : ProgressInfo :=
  if st.lesson_phonemes = [] then
    { progress := 0, current_time := 0, total_duration := 0,
      is_playing := none, current_phoneme := none }
  else
    let total_duration := totalDuration st.lesson_phonemes
    let progress :=
      if 0 < total_duration then min 1 (st.current_time_offset / total_duration)
      else 0
    let cp := get_current_phoneme st
    { progress := progress, current_time := st.current_time_offset,
      total_duration := total_duration,
      is_playing := some st.is_playing,
      current_phoneme := some (cp.map (fun p => (p.id, p.type))) }

end PhonemeEngine

namespace WebsocketServer

/-- A registered WebSocket endpoint.  Whether the await of send_json
raises for this endpoint during the pass under study is recorded in
sendOk, so that the pruning behaviour of the source can be followed. -/
structure Viewer where
  id : Nat
  sendOk : Bool
deriving DecidableEq, Repr

/-- Observable I/O action of a broadcast pass, carrying the payload sent.
The generic payload type stands for the JSON dictionary. -/
inductive Action (P : Type) where
  | sent (id : Nat) (payload : P) (ok : Bool)
  | pruned (id : Nat)
deriving DecidableEq, Repr

/-- Python list.remove guarded by a membership test, as in
ViewerManager.disconnect and ConnectionManager.disconnect: remove the
first occurrence if present, otherwise leave the list unchanged. -/
def removeFirst (vs : List Viewer) (v : Viewer) : List Viewer :=
  match vs with
  | [] => []
  | w :: ws => if w = v then ws else w :: removeFirst ws v

/-- One iteration of the delivery loop of ViewerManager.broadcast: the
send is attempted (recorded in the trace) and, on failure, the viewer is
appended to the local disconnected list; membership is not touched here. -/
def broadcastStep {P : Type} (data : P) (acc : List (Action P) × List Viewer)
    (v : Viewer) : List (Action P) × List Viewer :=
  if v.sendOk then (acc.1 ++ [Action.sent v.id data true], acc.2)
  else (acc.1 ++ [Action.sent v.id data false], acc.2 ++ [v])

/-- The method ViewerManager.broadcast: early return when no viewers,
otherwise one full delivery pass over the membership, then one disconnect
per failed viewer.  Returns the trace of actions and the new membership. -/
def broadcast {P : Type} (data : P) (vs : List Viewer) :
    List (Action P) × List Viewer :=
  if vs = [] then ([], vs)
  else
    let pass := vs.foldl (broadcastStep data) ([], [])
    (pass.1 ++ pass.2.map (fun v => Action.pruned v.id),
     pass.2.foldl removeFirst vs)

/-- The dictionary self.haptic_patterns of HapticEventManager together
with the .get default of get_pattern. -/
def get_pattern (phoneme_type : String) : List Int :=
  if phoneme_type = "vowel" then [100, 50, 100]
  else if phoneme_type = "consonant" then [200, 100, 200]
  else if phoneme_type = "buzz" then [50, 25, 50, 25, 50]
  else if phoneme_type = "silence" then []
  else [100]

/-- The haptic_feedback payload composed by
HapticEventManager.trigger_haptic; the wall-clock timestamp is passed in
explicitly. -/
structure HapticPayload where
  type : String
  pattern : List Int
  phoneme_type : String
  confidence : ℚ
  timestamp : ℚ
deriving DecidableEq, Repr

/-- Python int(p * 0.5) for an integer p: the product is exact and int
truncates toward zero. -/
def halveMs (p : Int) : Int := Int.tdiv p 2

/-- The phone delivery block of trigger_haptic: same send-then-prune
discipline as ViewerManager.broadcast, guarded by a non-empty membership
(an absent connection manager is modelled by the empty list, to which the
guard is equivalent). -/
def phone_broadcast {P : Type} (data : P) (vs : List Viewer) :
    List (Action P) × List Viewer :=
  if vs = [] then ([], vs)
  else
    let pass := vs.foldl (broadcastStep data) ([], [])
    (pass.1 ++ pass.2.map (fun v => Action.pruned v.id),
     pass.2.foldl removeFirst vs)

/-- The method HapticEventManager.trigger_haptic: compose the payload
(pattern magnitudes halved when confidence < 0.7) and deliver it first to
the viewer membership and then to the phone (source) membership.  Returns
the payload and, per role, the action trace and the new membership. -/
def trigger_haptic (viewers phones : List Viewer) (phoneme_type : String)
    (confidence : ℚ) (now : ℚ) :
    HapticPayload × (List (Action HapticPayload) × List Viewer) ×
      (List (Action HapticPayload) × List Viewer) :=
  let pattern := get_pattern phoneme_type
  let pattern := if confidence < 0.7 then pattern.map halveMs else pattern
  let haptic_event : HapticPayload :=
    { type := "haptic_feedback", pattern := pattern,
      phoneme_type := phoneme_type, confidence := confidence,
      timestamp := now }
  (haptic_event, broadcast haptic_event viewers,
   phone_broadcast haptic_event phones)

end WebsocketServer

namespace LipReading

/-- Movement tracking state of the class GeminiLipReader.  The talking
frame counter is a Python int, kept as an integer. -/
structure MouthTracker where
  prev_openness : ℚ
  openness_history : List ℚ
  talking_frames : Int
  mouth_state : String
deriving DecidableEq, Repr

/-- The initial movement tracking state set in GeminiLipReader.__init__. -/
def initTracker : MouthTracker :=
  { prev_openness := 0, openness_history := [], talking_frames := 0,
    mouth_state := "closed" }

/-- The dictionary returned by update_mouth_state.  The source rounds the
two rational fields to 4 and 5 decimal places for display; every value
arising in the properties below is exact at that precision, so the
rounding is the identity there and is not repeated here. -/
structure MouthUpdate where
  mouth_state : String
  openness : ℚ
  velocity : ℚ
deriving DecidableEq, Repr

/-- The method GeminiLipReader.update_mouth_state: push the sample onto
the history window (capped at 10), compute the velocity against the
previous sample, then classify. -/
def update_mouth_state (st : MouthTracker) (openness : ℚ) :
    MouthTracker × MouthUpdate :=
  let hist := st.openness_history ++ [openness]
  let hist := if 10 < hist.length then hist.tail else hist
  let velocity := openness - st.prev_openness
  let sc : String × Int :=
    if openness < 0.01 then ("closed", 0)
    else if 0.003 < |velocity| then
      let tf := st.talking_frames + 1
      (if 2 < tf then "talking" else "open", tf)
    else if 0.02 < openness then ("open", max 0 (st.talking_frames - 1))
    else ("closed", 0)
  ({ prev_openness := openness, openness_history := hist,
     talking_frames := sc.2, mouth_state := sc.1 },
   { mouth_state := sc.1, openness := openness, velocity := velocity })

end LipReading

open SpeechHapticPipeline PhonemeEngine WebsocketServer LipReading

/-- C3: for every normalized energy value e, intensity classification
returns silence below 0.01, low on [0.01, 0.04), medium on [0.04, 0.10),
high on [0.10, 0.20) and burst from 0.20 on; the tier is monotone in e,
and the five listed sample energies classify as stated. -/
theorem C3_intensity_classification (e e2 : ℚ) (h : e ≤ e2) :
    (rms_to_intensity e = "silence" ↔ e < 0.01) ∧
    (rms_to_intensity e = "low" ↔ 0.01 ≤ e ∧ e < 0.04) ∧
    (rms_to_intensity e = "medium" ↔ 0.04 ≤ e ∧ e < 0.10) ∧
    (rms_to_intensity e = "high" ↔ 0.10 ≤ e ∧ e < 0.20) ∧
    (rms_to_intensity e = "burst" ↔ 0.20 ≤ e) ∧
    tierRank (rms_to_intensity e) ≤ tierRank (rms_to_intensity e2) ∧
    rms_to_intensity 0.005 = "silence" ∧
    rms_to_intensity 0.035 = "low" ∧
    rms_to_intensity 0.08 = "medium" ∧
    rms_to_intensity 0.15 = "high" ∧
    rms_to_intensity 0.5 = "burst" := by
  refine ⟨?_, ?_, ?_, ?_, ?_, ?_, ?_, ?_, ?_, ?_, ?_⟩
  · unfold rms_to_intensity SILENCE_RMS_THRESHOLD
    split_ifs with h1 h2 h3 h4 <;> simp_all <;> try (intros; linarith)
  · unfold rms_to_intensity SILENCE_RMS_THRESHOLD
    split_ifs with h1 h2 h3 h4 <;> simp_all <;> try (intros; linarith)
  · unfold rms_to_intensity SILENCE_RMS_THRESHOLD
    split_ifs with h1 h2 h3 h4 <;> simp_all <;> try (intros; linarith)
  · unfold rms_to_intensity SILENCE_RMS_THRESHOLD
    split_ifs with h1 h2 h3 h4 <;> simp_all <;> try (intros; linarith)
  · unfold rms_to_intensity SILENCE_RMS_THRESHOLD
    split_ifs with h1 h2 h3 h4 <;> simp_all <;> try (intros; linarith)
  · unfold rms_to_intensity SILENCE_RMS_THRESHOLD
    split_ifs <;> first
      | decide
      | (exfalso; linarith)
  all_goals unfold rms_to_intensity SILENCE_RMS_THRESHOLD
  all_goals norm_num

/-- C3 witness: the theorem instantiated at the concrete pair
e = 0.005 ≤ e2 = 0.5, keeping the silence classification of 0.005 and the
monotone rank comparison. -/
theorem C3_intensity_witness :
    (0.005 : ℚ) ≤ 0.5 ∧ rms_to_intensity 0.005 = "silence" ∧
    tierRank (rms_to_intensity 0.005) ≤ tierRank (rms_to_intensity 0.5) :=
  ⟨by norm_num,
   (C3_intensity_classification 0.005 0.5 (by norm_num)).2.2.2.2.2.2.1,
   (C3_intensity_classification 0.005 0.5 (by norm_num)).2.2.2.2.2.1⟩

/-- C8: stopping the timeline engine is idempotent: a second stop is the
identity on the stopped state, and the stopped state has clock 0 and the
playing flag cleared. -/
theorem C8_stop_idempotent (st : EngineState) :
    stop_playback (stop_playback st) = stop_playback st ∧
    (stop_playback st).current_time_offset = 0 ∧
    (stop_playback st).is_playing = false :=
  ⟨rfl, rfl, rfl⟩

/-- C10: with an empty phoneme list, progress reporting returns zeros for
progress, current time and total duration whatever the clock offset and
playing flag are, and omits the is_playing and current_phoneme keys. -/
theorem C10_empty_lesson_progress (st : EngineState)
    (h : st.lesson_phonemes = []) :
    get_playback_progress st =
      { progress := 0, current_time := 0, total_duration := 0,
        is_playing := none, current_phoneme := none } := by
  simp [get_playback_progress, h]

/-- C10 witness: a state with a non-zero clock and the playing flag set
still reports the all-zero, field-omitting progress record. -/
theorem C10_empty_lesson_witness :
    (EngineState.mk [] 5 true 3).lesson_phonemes = [] ∧
    get_playback_progress (EngineState.mk [] 5 true 3) =
      { progress := 0, current_time := 0, total_duration := 0,
        is_playing := none, current_phoneme := none } :=
  ⟨rfl, C10_empty_lesson_progress (EngineState.mk [] 5 true 3) rfl⟩

/-- C5: a queue holding at most 5 chunks still holds at most 5 after a
push; a push onto a full queue drops exactly the oldest entry and appends
the new chunk at the newest end, while a push onto a non-full queue
appends without eviction. -/
theorem C5_queue_capacity {α : Type} (q : List α) (c : α)
    (hcap : q.length ≤ 5) :
    (push_chunk q c).length ≤ 5 ∧
    (q.length = 5 →
      push_chunk q c = q.tail ++ [c] ∧
      (push_chunk q c).length = 5 ∧
      (push_chunk q c).getLast? = some c) ∧
    (q.length < 5 → push_chunk q c = q ++ [c]) := by
  unfold push_chunk
  split_ifs with h5
  · refine ⟨?_, fun _ => ⟨rfl, ?_, ?_⟩, fun hlt => absurd h5 (by omega)⟩
    · simp only [List.length_append, List.length_tail, List.length_cons,
        List.length_nil]
      omega
    · simp only [List.length_append, List.length_tail, List.length_cons,
        List.length_nil]
      omega
    · simp
  · refine ⟨?_, fun h => absurd h (by omega), fun _ => rfl⟩
    simp only [List.length_append, List.length_cons, List.length_nil]
    omega

/-- C5 witness: pushing a sixth chunk onto the full queue [1,2,3,4,5]
evicts 1, keeps 2..5 and appends 6. -/
theorem C5_queue_witness :
    ([1, 2, 3, 4, 5] : List Nat).length ≤ 5 ∧
    ([1, 2, 3, 4, 5] : List Nat).length = 5 ∧
    push_chunk ([1, 2, 3, 4, 5] : List Nat) 6 = [2, 3, 4, 5, 6] := by
  refine ⟨by decide, by decide, ?_⟩
  have h := (C5_queue_capacity ([1, 2, 3, 4, 5] : List Nat) 6 (by decide)).2.1 rfl
  simpa using h.1

/-- Lesson entry used by the C4 check: phoneme p1 at start 0, duration 1. -/
def demoEntry1 : LessonEntry :=
  { id? := some "p1", type? := some "vowel", start? := some 0,
    duration? := some 1, haptic_pattern? := some [100], confidence? := some 1 }

/-- Lesson entry used by the C4 check: phoneme p2 at start 1, duration 1. -/
def demoEntry2 : LessonEntry :=
  { id? := some "p2", type? := some "vowel", start? := some 1,
    duration? := some 1, haptic_pattern? := some [100], confidence? := some 1 }

/-- Engine state after loading the two demo phonemes and starting playback
at offset 0 (wall clock passed as 0). -/
def demoStarted : EngineState :=
  start_playback (load_lesson initState [demoEntry1, demoEntry2]).2 0 0

/-- State and triggered phonemes after the first tick of 0.5 seconds. -/
def demoTick1 : EngineState × List Phoneme := update demoStarted 0.5

/-- State and triggered phonemes after the second tick of 0.5 seconds. -/
def demoTick2 : EngineState × List Phoneme := update demoTick1.1 0.5

/-- C4: a phoneme is active at time t exactly when start ≤ t < start +
duration, and in the two-phoneme demo lesson the tick to clock 0.5
activates only p1 while the tick to clock 1.0 activates only p2 (the
interval is half open). -/
theorem C4_half_open_activation (p : Phoneme) (t : ℚ) :
    (is_active_at_time p t = true ↔ p.start ≤ t ∧ t < p.start + p.duration) ∧
    (load_lesson initState [demoEntry1, demoEntry2]).1 = true ∧
    demoTick1.1.current_time_offset = 0.5 ∧
    demoTick1.2.map Phoneme.id = ["p1"] ∧
    demoTick2.1.current_time_offset = 1 ∧
    demoTick2.2.map Phoneme.id = ["p2"] := by
  refine ⟨by simp [is_active_at_time], rfl, ?_, ?_, ?_, ?_⟩
  · norm_num [demoTick1, demoStarted, update, start_playback, load_lesson,
      loadLoop, parseEntry, demoEntry1, demoEntry2, initState]
  · norm_num [demoTick1, demoStarted, update, start_playback, load_lesson,
      loadLoop, parseEntry, demoEntry1, demoEntry2, initState,
      get_active_phonemes, is_active_at_time]
  · norm_num [demoTick2, demoTick1, demoStarted, update, start_playback,
      load_lesson, loadLoop, parseEntry, demoEntry1, demoEntry2, initState,
      get_active_phonemes, is_active_at_time]
  · norm_num [demoTick2, demoTick1, demoStarted, update, start_playback,
      load_lesson, loadLoop, parseEntry, demoEntry1, demoEntry2, initState,
      get_active_phonemes, is_active_at_time]

/-- C4 witness: the half-open activation equivalence instantiated at the
first demo phoneme and the boundary time 1, where it is inactive. -/
theorem C4_half_open_witness :
    (is_active_at_time (Phoneme.mk "p1" "vowel" 0 1 [100] 1) 1 = true ↔
      (0 : ℚ) ≤ 1 ∧ (1 : ℚ) < 0 + 1) :=
  (C4_half_open_activation (Phoneme.mk "p1" "vowel" 0 1 [100] 1) 1).1

/-- C7: one mouth-state update is the stated deterministic function of the
sample, the previous sample and the talking counter: the velocity is the
difference to the previous sample, the returned record carries the state,
the sample and the velocity, the history window stays capped at 10, and
the four classification branches set state and counter as specified. -/
theorem C7_mouth_state_update (st : MouthTracker) (o : ℚ)
    (hw : st.openness_history.length ≤ 10) :
    (update_mouth_state st o).2.velocity = o - st.prev_openness ∧
    (update_mouth_state st o).2.openness = o ∧
    (update_mouth_state st o).2.mouth_state =
      (update_mouth_state st o).1.mouth_state ∧
    (update_mouth_state st o).1.prev_openness = o ∧
    (update_mouth_state st o).1.openness_history.length ≤ 10 ∧
    (o < 0.01 →
      (update_mouth_state st o).1.mouth_state = "closed" ∧
      (update_mouth_state st o).1.talking_frames = 0) ∧
    (¬ o < 0.01 → 0.003 < |o - st.prev_openness| →
      (update_mouth_state st o).1.talking_frames = st.talking_frames + 1 ∧
      (update_mouth_state st o).1.mouth_state =
        (if 2 < st.talking_frames + 1 then "talking" else "open")) ∧
    (¬ o < 0.01 → ¬ 0.003 < |o - st.prev_openness| → 0.02 < o →
      (update_mouth_state st o).1.mouth_state = "open" ∧
      (update_mouth_state st o).1.talking_frames =
        max 0 (st.talking_frames - 1)) ∧
    (¬ o < 0.01 → ¬ 0.003 < |o - st.prev_openness| → ¬ 0.02 < o →
      (update_mouth_state st o).1.mouth_state = "closed" ∧
      (update_mouth_state st o).1.talking_frames = 0) := by
  unfold update_mouth_state
  dsimp only
  refine ⟨rfl, rfl, rfl, rfl, ?_, ?_, ?_, ?_, ?_⟩
  · by_cases h10 : 10 < (st.openness_history ++ [o]).length
    · rw [if_pos h10]
      simp only [List.length_tail, List.length_append, List.length_cons,
        List.length_nil] at *
      omega
    · rw [if_neg h10]
      simp only [List.length_append, List.length_cons, List.length_nil] at *
      omega
  · intro h1
    rw [if_pos h1]
    exact ⟨rfl, rfl⟩
  · intro h1 h2
    rw [if_neg h1, if_pos h2]
    exact ⟨rfl, rfl⟩
  · intro h1 h2 h3
    rw [if_neg h1, if_neg h2, if_pos h3]
    exact ⟨rfl, rfl⟩
  · intro h1 h2 h3
    rw [if_neg h1, if_neg h2, if_neg h3]
    exact ⟨rfl, rfl⟩

/-- C7 witness: updating the fresh tracker with the sample 0.05 satisfies
the window bound and takes the movement branch, incrementing the counter
to 1 and reporting the open state with velocity 0.05. -/
theorem C7_mouth_state_witness :
    initTracker.openness_history.length ≤ 10 ∧
    ¬ (0.05 : ℚ) < 0.01 ∧ (0.003 : ℚ) < |(0.05 : ℚ) - initTracker.prev_openness| ∧
    (update_mouth_state initTracker 0.05).1.talking_frames =
      initTracker.talking_frames + 1 ∧
    (update_mouth_state initTracker 0.05).2.velocity =
      0.05 - initTracker.prev_openness := by
  have h1 : ¬ (0.05 : ℚ) < 0.01 := by norm_num
  have h2 : (0.003 : ℚ) < |(0.05 : ℚ) - initTracker.prev_openness| := by
    norm_num [initTracker, abs_of_nonneg]
  have h := C7_mouth_state_update initTracker 0.05 (by simp [initTracker])
  exact ⟨by simp [initTracker], h1, h2, (h.2.2.2.2.2.2.1 h1 h2).1, h.1⟩

/-- The sample transcript fragment from the specification. -/
def demoInput : Text :=
  "I went to the store and bought some milk and bread".toList

/-- C1 counterexample: on the sample input the final flushed phrase is the
single word bread, so not every output phrase has at least 2 words. -/
theorem C1_phrase_counterexample :
    "bread".toList ∈ split_phrases demoInput ∧
    wordCount "bread".toList = 1 ∧
    ¬ (∀ p ∈ split_phrases demoInput,
        2 ≤ wordCount p ∧ wordCount p ≤ MAX_PHRASE_WORDS) := by
  decide

/-- C1 amended: phrase segmentation behaves as described, but the flushed
remainder may fall below the 2-word minimum: on the sample input the
output is exactly the three phrases below, every phrase has word count
between 1 and 8, and both cut points sit at the conjunction and rather
than at a forced 8-word cut (each cut phrase is shorter than the
maximum). -/
theorem C1_phrase_segmentation :
    split_phrases demoInput =
      ["I went to the store and".toList, "bought some milk and".toList,
       "bread".toList] ∧
    (∀ p ∈ split_phrases demoInput,
      1 ≤ wordCount p ∧ wordCount p ≤ MAX_PHRASE_WORDS) ∧
    (pySplitWs "I went to the store and".toList).getLast? =
      some "and".toList ∧
    (pySplitWs "bought some milk and".toList).getLast? =
      some "and".toList ∧
    pyLower "and".toList ∈ SPLIT_WORDS ∧
    wordCount "I went to the store and".toList < MAX_PHRASE_WORDS ∧
    wordCount "bought some milk and".toList < MAX_PHRASE_WORDS := by
  decide

/-- An engine state with one phoneme already loaded, used to exhibit the
mutation performed by a failing load. -/
def presetState : EngineState :=
  { lesson_phonemes := [Phoneme.mk "p0" "vowel" 0 1 [100] 1],
    current_time_offset := 0, is_playing := false, last_processed_time := 0 }

/-- A malformed lesson entry: the mandatory start key is missing. -/
def badEntry : LessonEntry :=
  { id? := some "p9", type? := some "vowel", start? := none,
    duration? := some 1, haptic_pattern? := none, confidence? := none }

/-- Helper for C2: when some entry is malformed, the load loop returns
False and the phoneme list holds exactly the entries already appended plus
those parsed from the well-formed prefix, the other fields untouched. -/
theorem loadLoop_first_failure (entries : List LessonEntry) :
    ∀ st : EngineState, (∃ e ∈ entries, parseEntry e = none) →
      loadLoop st entries =
        (false,
         { st with lesson_phonemes := st.lesson_phonemes ++
             (entries.takeWhile
               (fun e => (parseEntry e).isSome)).filterMap parseEntry }) := by
  induction entries with
  | nil => intro st h; simp at h
  | cons e es ih =>
    intro st h
    cases hp : parseEntry e with
    | none =>
      simp [loadLoop, hp, List.takeWhile_cons]
    | some p =>
      have hes : ∃ e2 ∈ es, parseEntry e2 = none := by
        rcases h with ⟨e2, he2, hnone⟩
        rcases List.mem_cons.mp he2 with rfl | hmem
        · exact absurd hp (by simp [hnone])
        · exact ⟨e2, hmem, hnone⟩
      simp only [loadLoop, hp]
      rw [ih _ hes]
      simp [List.takeWhile_cons, hp]

/-- C2 counterexample: loading a single malformed entry into an engine
that already holds one phoneme returns False but clears the phoneme list,
so the existing state is mutated. -/
theorem C2_load_counterexample :
    (load_lesson presetState [badEntry]).1 = false ∧
    (load_lesson presetState [badEntry]).2.lesson_phonemes = [] ∧
    (load_lesson presetState [badEntry]).2.lesson_phonemes ≠
      presetState.lesson_phonemes := by
  decide

/-- C2 amended: a load with a malformed entry reports failure to the
caller, but does not leave the existing phoneme list unchanged: the list
is replaced by the phonemes parsed from the longest well-formed prefix of
the new entries (the clock, playing flag and tick timestamp are the only
fields preserved). -/
theorem C2_load_lesson_failure (st : EngineState) (entries : List LessonEntry)
    (hbad : ∃ e ∈ entries, parseEntry e = none) :
    (load_lesson st entries).1 = false ∧
    (load_lesson st entries).2.lesson_phonemes =
      (entries.takeWhile (fun e => (parseEntry e).isSome)).filterMap
        parseEntry ∧
    (load_lesson st entries).2.is_playing = st.is_playing ∧
    (load_lesson st entries).2.current_time_offset =
      st.current_time_offset ∧
    (load_lesson st entries).2.last_processed_time =
      st.last_processed_time := by
  unfold load_lesson
  rw [loadLoop_first_failure entries _ hbad]
  simp

/-- C2 witness: the amended statement applied to the one-phoneme engine
and the single malformed entry. -/
theorem C2_load_lesson_witness :
    (∃ e ∈ [badEntry], parseEntry e = none) ∧
    (load_lesson presetState [badEntry]).1 = false ∧
    (load_lesson presetState [badEntry]).2.lesson_phonemes =
      ([badEntry].takeWhile (fun e => (parseEntry e).isSome)).filterMap
        parseEntry :=
  ⟨⟨badEntry, by decide, by decide⟩,
   (C2_load_lesson_failure presetState [badEntry]
      ⟨badEntry, by decide, by decide⟩).1,
   (C2_load_lesson_failure presetState [badEntry]
      ⟨badEntry, by decide, by decide⟩).2.1⟩

/-- Helper for C6: the delivery pass visits the whole membership in order,
recording one send per member, and collects exactly the failed members in
order; it performs no removal. -/
theorem broadcast_pass_spec {P : Type} (data : P) (vs : List Viewer) :
    ∀ (tr : List (Action P)) (dis : List Viewer),
      vs.foldl (broadcastStep data) (tr, dis) =
        (tr ++ vs.map (fun v => Action.sent v.id data v.sendOk),
         dis ++ vs.filter (fun v => !v.sendOk)) := by
  induction vs with
  | nil => intro tr dis; simp
  | cons v vs ih =>
    intro tr dis
    by_cases h : v.sendOk = true <;>
      simp [broadcastStep, h, ih]

/-- Helper for C6: disconnecting a batch that does not contain the head
leaves the head in place. -/
theorem foldl_removeFirst_cons (x : Viewer) (ds : List Viewer) :
    ∀ xs : List Viewer, x ∉ ds →
      ds.foldl removeFirst (x :: xs) = x :: ds.foldl removeFirst xs := by
  induction ds with
  | nil => intro xs _; rfl
  | cons d ds ih =>
    intro xs hx
    have hxd : x ≠ d := fun he => hx (he ▸ List.mem_cons_self d ds)
    have hx2 : x ∉ ds := fun hm => hx (List.mem_cons_of_mem d hm)
    simp only [List.foldl_cons, removeFirst, if_neg hxd]
    exact ih _ hx2

/-- Helper for C6: with distinct members, disconnecting exactly the failed
members keeps exactly the members whose send succeeded, in order. -/
theorem foldl_removeFirst_filter (vs : List Viewer) (hnd : vs.Nodup) :
    (vs.filter (fun v => !v.sendOk)).foldl removeFirst vs =
      vs.filter (fun v => v.sendOk) := by
  induction vs with
  | nil => rfl
  | cons x xs ih =>
    obtain ⟨hx, hnd2⟩ := List.nodup_cons.mp hnd
    by_cases h : x.sendOk = true
    · have hx2 : x ∉ xs.filter (fun v => !v.sendOk) :=
        fun hm => hx (List.mem_of_mem_filter hm)
      rw [List.filter_cons_of_neg (by simp [h]),
        List.filter_cons_of_pos (by simp [h]),
        foldl_removeFirst_cons x _ xs hx2, ih hnd2]
    · rw [List.filter_cons_of_pos (by simp [h]),
        List.filter_cons_of_neg (by simp [h])]
      simp only [List.foldl_cons, removeFirst, if_pos rfl]
      exact ih hnd2

/-- C6: a broadcast over a distinct membership first attempts one send per
member of the initial membership in order, removes nobody during that
pass (every prune action comes after all sends), then removes exactly the
members whose send failed; with the three-viewer membership in which only
the second send fails, the two successful sends precede the single prune
and the final membership is the first and third viewer. -/
theorem C6_broadcast_snapshot_prune {P : Type} (data : P) (vs : List Viewer)
    (hnd : vs.Nodup) :
    (broadcast data vs).1 =
      vs.map (fun v => Action.sent v.id data v.sendOk) ++
        (vs.filter (fun v => !v.sendOk)).map (fun v => Action.pruned v.id) ∧
    (broadcast data vs).2 = vs.filter (fun v => v.sendOk) ∧
    (broadcast data
        [Viewer.mk 1 true, Viewer.mk 2 false, Viewer.mk 3 true]).1 =
      [Action.sent 1 data true, Action.sent 2 data false,
       Action.sent 3 data true, Action.pruned 2] ∧
    (broadcast data
        [Viewer.mk 1 true, Viewer.mk 2 false, Viewer.mk 3 true]).2 =
      [Viewer.mk 1 true, Viewer.mk 3 true] := by
  have hgen : ∀ (ws : List Viewer), ws.Nodup →
      (broadcast data ws).1 =
        ws.map (fun v => Action.sent v.id data v.sendOk) ++
          (ws.filter (fun v => !v.sendOk)).map (fun v => Action.pruned v.id) ∧
      (broadcast data ws).2 = ws.filter (fun v => v.sendOk) := by
    intro ws hnd2
    by_cases hemp : ws = []
    · subst hemp; exact ⟨rfl, rfl⟩
    · unfold broadcast
      rw [if_neg hemp, broadcast_pass_spec data ws [] []]
      exact ⟨by simp, by simpa using foldl_removeFirst_filter ws hnd2⟩
  have hdemo := hgen [Viewer.mk 1 true, Viewer.mk 2 false, Viewer.mk 3 true]
    (by decide)
  exact ⟨(hgen vs hnd).1, (hgen vs hnd).2,
    by simpa using hdemo.1, by simpa using hdemo.2⟩

/-- C6 witness: the theorem applied to the three-viewer membership with
payload 0, discharging distinctness. -/
theorem C6_broadcast_witness :
    ([Viewer.mk 1 true, Viewer.mk 2 false, Viewer.mk 3 true] :
      List Viewer).Nodup ∧
    (broadcast (0 : Nat)
        [Viewer.mk 1 true, Viewer.mk 2 false, Viewer.mk 3 true]).2 =
      [Viewer.mk 1 true, Viewer.mk 3 true] :=
  ⟨by decide,
   (C6_broadcast_snapshot_prune (0 : Nat)
      [Viewer.mk 1 true, Viewer.mk 2 false, Viewer.mk 3 true]
      (by decide)).2.2.2⟩

/-- C9: for every phoneme category and confidence, the haptic trigger
composes one payload whose pattern is the fixed pattern of the category
with every magnitude halved (integer truncation) exactly when confidence
is below 0.7 and unscaled otherwise, and the delivery passes attempt to
send that same payload to every member of the viewer role and of the
source (phone) role. -/
theorem C9_trigger_haptic_payload (viewers phones : List Viewer)
    (phoneme_type : String) (confidence now : ℚ) :
    (confidence < 0.7 →
      (trigger_haptic viewers phones phoneme_type confidence now).1.pattern =
        (get_pattern phoneme_type).map halveMs) ∧
    (¬ confidence < 0.7 →
      (trigger_haptic viewers phones phoneme_type confidence now).1.pattern =
        get_pattern phoneme_type) ∧
    (trigger_haptic viewers phones phoneme_type confidence now).1.type =
      "haptic_feedback" ∧
    (trigger_haptic viewers phones phoneme_type confidence
        now).1.phoneme_type = phoneme_type ∧
    (trigger_haptic viewers phones phoneme_type confidence
        now).1.confidence = confidence ∧
    (trigger_haptic viewers phones phoneme_type confidence now).2.1.1 =
      viewers.map (fun v => Action.sent v.id
          (trigger_haptic viewers phones phoneme_type confidence now).1
          v.sendOk) ++
        (viewers.filter (fun v => !v.sendOk)).map
          (fun v => Action.pruned v.id) ∧
    (trigger_haptic viewers phones phoneme_type confidence now).2.2.1 =
      phones.map (fun v => Action.sent v.id
          (trigger_haptic viewers phones phoneme_type confidence now).1
          v.sendOk) ++
        (phones.filter (fun v => !v.sendOk)).map
          (fun v => Action.pruned v.id) := by
  have htrace : ∀ (P : Type) (data : P) (ws : List Viewer),
      (broadcast data ws).1 =
        ws.map (fun v => Action.sent v.id data v.sendOk) ++
          (ws.filter (fun v => !v.sendOk)).map
            (fun v => Action.pruned v.id) := by
    intro P data ws
    by_cases hemp : ws = []
    · subst hemp; rfl
    · unfold broadcast
      rw [if_neg hemp, broadcast_pass_spec data ws [] []]
      simp
  have hptrace : ∀ (P : Type) (data : P) (ws : List Viewer),
      (phone_broadcast data ws).1 =
        ws.map (fun v => Action.sent v.id data v.sendOk) ++
          (ws.filter (fun v => !v.sendOk)).map
            (fun v => Action.pruned v.id) := by
    intro P data ws
    by_cases hemp : ws = []
    · subst hemp; rfl
    · unfold phone_broadcast
      rw [if_neg hemp, broadcast_pass_spec data ws [] []]
      simp
  unfold trigger_haptic
  dsimp only
  refine ⟨fun h => by rw [if_pos h], fun h => by rw [if_neg h], rfl, rfl, rfl,
    ?_, ?_⟩
  · exact htrace _ _ viewers
  · exact hptrace _ _ phones

/-- C9 witness: a consonant trigger at confidence 0.5 halves the pattern
[200, 100, 200] to [100, 50, 100] and its viewer trace sends that payload
to the single registered viewer. -/
theorem C9_trigger_haptic_witness :
    (0.5 : ℚ) < 0.7 ∧
    (trigger_haptic [Viewer.mk 1 true] [] "consonant" 0.5 0).1.pattern =
      (get_pattern "consonant").map halveMs ∧
    (get_pattern "consonant").map halveMs = [100, 50, 100] := by
  have h : (0.5 : ℚ) < 0.7 := by norm_num
  exact ⟨h,
    (C9_trigger_haptic_payload [Viewer.mk 1 true] [] "consonant" 0.5 0).1 h,
    by decide⟩
